import Mathlib

/-!
Shallow embedding of the job-hunter resume pipeline core
(`src/resume_structurer.py`, `src/resume_parser.py`).

Python dicts that may lack keys are embedded as structures with `Option`
fields; a key that is absent is `none`, a key present with value `v` is
`some v`.  Python `dict.get(k, d)` becomes `Option.getD`, `list` becomes
`List`, and Python `==` on dicts/lists coincides with structural equality
on these types (Python dict equality ignores key order, as do structures).

`merge_with_master` performs `master_data.copy()` — a SHALLOW copy — and
then mutates nested containers in place; since the shallow embedding is
on values, the function `merge_with_master` below computes the returned
document, and `master_after` separately computes the value of the
`master_data` argument after the call (the in-place effect transmitted
through the containers shared between the shallow copy and the master).
-/

namespace JobHunter

/-- The `personal` dict.  Keys are optional (a freshly built personal dict
may hold only the keys that were assigned). -/
structure Personal where
  name : Option String
  email : Option String
  phone : Option String
  location : Option String
  linkedin : Option String
  portfolio : Option String
  summary : Option String
deriving Repr, DecidableEq

/-- A formatted bullet as produced by `_format_experience`.
`metrics` and `tailored_versions` are free-form mappings (always created
empty by the structurer); embedded as association lists. -/
structure Bullet where
  id : String
  original : String
  keywords : List String
  metrics : List (String × String)
  tailored_versions : List (String × String)
deriving Repr, DecidableEq

/-- A formatted experience (Position) entry. -/
structure Exp where
  id : String
  company : String
  title : String
  location : String
  start_date : String
  end_date : String
  current : Bool
  bullets : List Bullet
deriving Repr, DecidableEq

/-- A formatted education entry (`_format_education` output shape). -/
structure Edu where
  institution : String
  degree : String
  field : String
  graduation_date : String
  gpa : String
  honors : List String
  relevant_coursework : List String
deriving Repr, DecidableEq

/-- The `skills` dict: category name → list of strings.  The code only
ever touches the four fixed categories, each optionally present. -/
structure SkillsDict where
  technical : Option (List String)
  soft : Option (List String)
  tools : Option (List String)
  certifications : Option (List String)
deriving Repr, DecidableEq

/-- The `meta` dict written by `_create_full_resume`. -/
structure Meta where
  version : String
  last_updated : String
  notes : String
deriving Repr, DecidableEq

/-- A profile document (extracted fragment or master resume): a dict whose
top-level sections may each be absent. -/
structure Profile where
  meta : Option Meta
  personal : Option Personal
  experience : Option (List Exp)
  education : Option (List Edu)
  skills : Option SkillsDict
  projects : Option (List String)
  volunteer : Option (List String)
  awards : Option (List String)
  raw_text : Option String
deriving Repr, DecidableEq

/-- A personal dict with no keys set (Python `{}`). -/
def emptyPersonal : Personal :=
  { name := none, email := none, phone := none, location := none,
    linkedin := none, portfolio := none, summary := none }

/-- A skills dict with no keys set (Python `{}`). -/
def emptySkillsDict : SkillsDict :=
  { technical := none, soft := none, tools := none, certifications := none }

/-- `extracted_data.get("skills", {}).get(category, [])` for a category
selector. -/
def getCat (os : Option SkillsDict) (sel : SkillsDict → Option (List String)) :
    List String :=
  (sel (os.getD emptySkillsDict)).getD []

/-- The dedup key for experience entries: `(e["company"], e["title"],
e["start_date"])`. -/
def expKey (e : Exp) : String × String × String :=
  (e.company, e.title, e.start_date)

/-- The dedup key for education entries: `(e["institution"], e["degree"])`. -/
def eduKey (d : Edu) : String × String :=
  (d.institution, d.degree)

/-- The extracted experience entries whose key is not in the master's key
set.  The set `existing_exp` is computed once, before the loop, and never
updated inside it, so entries are filtered independently. -/
def newExps (masterExp l : List Exp) : List Exp :=
  l.filter (fun x => ! masterExp.any (fun y => expKey y == expKey x))

/-- The extracted education entries whose key is not in the master's key
set (`existing_edu`, likewise computed once). -/
def newEdus (masterEdu l : List Edu) : List Edu :=
  l.filter (fun x => ! masterEdu.any (fun y => eduKey y == eduKey x))

/-- Python `str.lower()` restricted to ASCII, computed on the character
list (`String.toLower` itself is not kernel-reducible). -/
def pyLower (s : String) : String :=
  String.mk (s.data.map Char.toLower)

/-- Python `str.strip()` (ASCII whitespace), computed on the character
list. -/
def pyStrip (s : String) : String :=
  String.mk
    (((s.data.dropWhile Char.isWhitespace).reverse.dropWhile
      Char.isWhitespace).reverse)

/-- `skill.lower() in {s.lower() for s in cat}`. -/
def lowerMem (s : String) (l : List String) : Bool :=
  l.any (fun t => pyLower t == pyLower s)

/-- Append-mode new skills for one category: each extracted skill is kept
iff its lowercase form is absent from the master's category.  The
`existing` set is not updated inside the loop, so duplicates inside the
extracted list are all kept. -/
def appendNewSkills (masterCat ecat : List String) : List String :=
  ecat.filter (fun s => ! lowerMem s masterCat)

/-- Merge-mode new skills for one category: here `existing_lower` is
extended (`existing_lower.add(skill.lower())`) as skills are appended, so
the extracted batch is also deduplicated against itself. -/
def mergeNewSkillsAux : List String → List String → List String
  | [], _ => []
  | s :: rest, existingLower =>
    if existingLower.contains (pyLower s) then
      mergeNewSkillsAux rest existingLower
    else
      s :: mergeNewSkillsAux rest (pyLower s :: existingLower)

/-- One merge-mode category: master's list followed by the new skills. -/
def mergeCat (masterCat ecat : List String) : List String :=
  masterCat ++ mergeNewSkillsAux ecat (masterCat.map pyLower)

/-- `if l.isEmpty then none else some l` — a container that exists only if
something was ever inserted into it via `setdefault`. -/
def optOfList (l : List String) : Option (List String) :=
  if l.isEmpty then none else some l

/-- Append-mode update of one category of a present skills dict.  When the
category is absent it is created (by `setdefault(category, [])`) only if
at least one skill is actually appended. -/
def appendCatOpt (mc : Option (List String)) (ec : List String) :
    Option (List String) :=
  let adds := appendNewSkills (mc.getD []) ec
  match mc with
  | some l => some (l ++ adds)
  | none => optOfList adds

/-- Append-mode skills update applied to a present master skills dict. -/
def appendSkillsInner (sd : SkillsDict) (es : Option SkillsDict) : SkillsDict :=
  { technical := appendCatOpt sd.technical (getCat es SkillsDict.technical),
    soft := appendCatOpt sd.soft (getCat es SkillsDict.soft),
    tools := appendCatOpt sd.tools (getCat es SkillsDict.tools),
    certifications :=
      appendCatOpt sd.certifications (getCat es SkillsDict.certifications) }

/-- Append-mode `skills` section of the result.  When the master has no
`skills` key, `result.setdefault("skills", {})` creates one only at the
first actual append, so the section stays absent when nothing is added. -/
def appendSkillsDict (ms es : Option SkillsDict) : Option SkillsDict :=
  match ms with
  | some sd => some (appendSkillsInner sd es)
  | none =>
    let t := appendNewSkills [] (getCat es SkillsDict.technical)
    let s := appendNewSkills [] (getCat es SkillsDict.soft)
    let o := appendNewSkills [] (getCat es SkillsDict.tools)
    let c := appendNewSkills [] (getCat es SkillsDict.certifications)
    if t.isEmpty && s.isEmpty && o.isEmpty && c.isEmpty then none
    else
      some {
        technical := optOfList t, soft := optOfList s,
        tools := optOfList o, certifications := optOfList c }

/-- Merge-mode skills: every category is assigned unconditionally
(`result.setdefault("skills", {})[category] = existing`), so the result's
skills dict always holds all four categories. -/
def mergeSkillsDict (ms es : Option SkillsDict) : SkillsDict :=
  { technical :=
      some (mergeCat (getCat ms SkillsDict.technical) (getCat es SkillsDict.technical)),
    soft := some (mergeCat (getCat ms SkillsDict.soft) (getCat es SkillsDict.soft)),
    tools := some (mergeCat (getCat ms SkillsDict.tools) (getCat es SkillsDict.tools)),
    certifications :=
      some (mergeCat (getCat ms SkillsDict.certifications)
        (getCat es SkillsDict.certifications)) }

/-- `if value and value.strip():` — the guard under which an extracted
personal value overwrites the master's. -/
def truthyStr : Option String → Bool
  | none => false
  | some v => v != "" && pyStrip v != ""

/-- One field of the personal-info update. -/
def updateField (mv ev : Option String) : Option String :=
  if truthyStr ev then ev else mv

/-- `for key, value in extracted["personal"].items(): if value and
value.strip(): result["personal"][key] = value` on a present target. -/
def updatePersonal (p ep : Personal) : Personal :=
  { name := updateField p.name ep.name,
    email := updateField p.email ep.email,
    phone := updateField p.phone ep.phone,
    location := updateField p.location ep.location,
    linkedin := updateField p.linkedin ep.linkedin,
    portfolio := updateField p.portfolio ep.portfolio,
    summary := updateField p.summary ep.summary }

/-- Whether at least one extracted personal value passes the guard (and
hence `result.setdefault("personal", {})` ever runs). -/
def personalAnyNonempty (ep : Personal) : Bool :=
  truthyStr ep.name || truthyStr ep.email || truthyStr ep.phone ||
  truthyStr ep.location || truthyStr ep.linkedin || truthyStr ep.portfolio ||
  truthyStr ep.summary

/-- Merge-mode `personal` section of the result. -/
def mergePersonal (mp ep : Option Personal) : Option Personal :=
  match ep with
  | none => mp
  | some e =>
    match mp with
    | some p => some (updatePersonal p e)
    | none =>
      if personalAnyNonempty e then some (updatePersonal emptyPersonal e)
      else none

/-- Experience section of the result in append and merge modes: new
entries are inserted one by one at index 0, so they end up in reverse
extraction order in front of the master's entries.  When the master has
no `experience` key, `setdefault` creates the list only if an entry is
actually inserted. -/
def mergeExpOpt (mexp : Option (List Exp)) (eexp : List Exp) :
    Option (List Exp) :=
  match mexp with
  | some l => some ((newExps l eexp).reverse ++ l)
  | none =>
    let ne := newExps [] eexp
    if ne.isEmpty then none else some ne.reverse

/-- Education section of the result in append and merge modes: new entries
are appended at the end. -/
def mergeEduOpt (medu : Option (List Edu)) (eedu : List Edu) :
    Option (List Edu) :=
  match medu with
  | some l => some (l ++ newEdus l eedu)
  | none =>
    let ne := newEdus [] eedu
    if ne.isEmpty then none else some ne

/-- The `append` branch of `merge_with_master`: `result =
master_data.copy()` plus the three section updates. -/
def mergeAppend (extracted master : Profile) : Profile :=
  { master with
    experience := mergeExpOpt master.experience (extracted.experience.getD []),
    education := mergeEduOpt master.education (extracted.education.getD []),
    skills := appendSkillsDict master.skills extracted.skills }

/-- The `merge` (default) branch of `merge_with_master`. -/
def mergeMerge (extracted master : Profile) : Profile :=
  { master with
    personal := mergePersonal master.personal extracted.personal,
    experience := mergeExpOpt master.experience (extracted.experience.getD []),
    education := mergeEduOpt master.education (extracted.education.getD []),
    skills := some (mergeSkillsDict master.skills extracted.skills) }

/-- `_create_full_resume`.  `datetime.now().strftime("%Y-%m-%d")` is the
explicit parameter `today`. -/
def create_full_resume (today : String) (e : Profile) : Profile :=
  { meta := some {
      version := "1.0", last_updated := today,
      notes := "Imported from uploaded resume" },
    personal := some
      { name := some ((e.personal.getD emptyPersonal).name.getD ""),
        email := some ((e.personal.getD emptyPersonal).email.getD ""),
        phone := some ((e.personal.getD emptyPersonal).phone.getD ""),
        location := some ((e.personal.getD emptyPersonal).location.getD ""),
        linkedin := some ((e.personal.getD emptyPersonal).linkedin.getD ""),
        portfolio := some "",
        summary := some ((e.personal.getD emptyPersonal).summary.getD "") },
    experience := some (e.experience.getD []),
    education := some (e.education.getD []),
    skills := some
      { technical := some (getCat e.skills SkillsDict.technical),
        soft := some (getCat e.skills SkillsDict.soft),
        tools := some (getCat e.skills SkillsDict.tools),
        certifications := some (getCat e.skills SkillsDict.certifications) },
    projects := some [],
    volunteer := some [],
    awards := some [],
    raw_text := none }

/-- `ResumeStructurer.merge_with_master` — the value of the returned
document.  Any mode other than `replace` and `append` takes the default
`merge` branch, as in the source's trailing `else`. -/
def merge_with_master (today : String) (extracted master : Profile)
    (mode : String) : Profile :=
  if mode == "replace" then create_full_resume today extracted
  else if mode == "append" then mergeAppend extracted master
  else mergeMerge extracted master

/-- The value of the `master_data` argument after `merge_with_master`
returns: `result = master_data.copy()` is a shallow copy, so every update
that goes through a nested container already present in the master
(`result["experience"].insert(0, ...)`, `result["education"].append(...)`,
`result["skills"][cat].append(...)`, `result["personal"][k] = v`) mutates
the master's own container in place.  Containers created by `setdefault`
on the copy, and top-level key insertions, do not reach the master. -/
def master_after (extracted master : Profile) (mode : String) : Profile :=
  if mode == "replace" then master
  else if mode == "append" then
    { master with
      experience := master.experience.map
        (fun l => (newExps l (extracted.experience.getD [])).reverse ++ l),
      education := master.education.map
        (fun l => l ++ newEdus l (extracted.education.getD [])),
      skills := master.skills.map (fun sd => appendSkillsInner sd extracted.skills) }
  else
    { master with
      personal :=
        (match extracted.personal with
        | none => master.personal
        | some ep => master.personal.map (fun p => updatePersonal p ep)),
      experience := master.experience.map
        (fun l => (newExps l (extracted.experience.getD [])).reverse ++ l),
      education := master.education.map
        (fun l => l ++ newEdus l (extracted.education.getD [])),
      skills := master.skills.map
        (fun sd => mergeSkillsDict (some sd) extracted.skills) }

/-- An element of a raw `bullets` array: the loop keeps only the elements
for which `isinstance(bullet, str)` holds; anything else is skipped. -/
inductive RawBullet where
  | str (s : String)
  | nonstr
deriving Repr, DecidableEq

/-- A raw experience entry as decoded from the model's JSON: every key is
optional, and the `current` value, when present, is a boolean. -/
structure RawExp where
  company : Option String
  title : Option String
  location : Option String
  start_date : Option String
  end_date : Option String
  current : Option Bool
  bullets : Option (List RawBullet)
deriving Repr, DecidableEq

/-- Python `f"{n:03d}"`: decimal, left-padded with zeros to width 3. -/
def pad3 (n : Nat) : String :=
  if n < 10 then "00" ++ toString n
  else if n < 100 then "0" ++ toString n
  else toString n

/-- The characters of the literal passed to `lstrip` in
`_format_experience`.  The source file's bytes at that literal are
`c3 a2 e2 82 ac c2 a2` — the UTF-8 encoding of `â`, `€`, `¢` (the bullet
character U+2022 as seen through a cp1252 mis-decode), so the actual
strip set is these three characters plus `-`, `*` and space; U+2022
itself is not in the set. -/
def lstripChars : List Char := ['â', '€', '¢', '-', '*', ' ']

/-- Python `s.lstrip(chars)`: drop leading characters belonging to the
set. -/
def pyLstrip (chars : List Char) (s : String) : String :=
  String.mk (s.data.dropWhile (fun c => chars.contains c))

/-- One formatted bullet (`j` is the 0-based `enumerate` index). -/
def formatBullet (j : Nat) (b : String) : Bullet :=
  { id := "bullet_" ++ pad3 (j + 1),
    original := pyLstrip lstripChars (pyStrip b),
    keywords := [],
    metrics := [],
    tailored_versions := [] }

/-- The bullet loop: `enumerate` counts every element, including the
non-string ones that are skipped. -/
def formatBullets : Nat → List RawBullet → List Bullet
  | _, [] => []
  | j, .str s :: rest => formatBullet j s :: formatBullets (j + 1) rest
  | j, .nonstr :: rest => formatBullets (j + 1) rest

/-- One formatted experience entry (`i` is the 0-based `enumerate`
index).  `current` is forced true when the textual end date is
case-insensitively "present". -/
def formatOneExp (i : Nat) (exp : RawExp) : Exp :=
  let c0 := exp.current.getD false
  let isCurrent :=
    if !c0 && pyLower (exp.end_date.getD "") == "present" then true else c0
  { id := "exp_" ++ pad3 (i + 1),
    company := exp.company.getD "",
    title := exp.title.getD "",
    location := exp.location.getD "",
    start_date := exp.start_date.getD "",
    end_date := if isCurrent then "present" else exp.end_date.getD "",
    current := isCurrent,
    bullets := formatBullets 0 (exp.bullets.getD []) }

/-- The `enumerate`d entry loop of `_format_experience`. -/
def formatExperienceFrom : Nat → List RawExp → List Exp
  | _, [] => []
  | i, e :: rest => formatOneExp i e :: formatExperienceFrom (i + 1) rest

/-- `ResumeStructurer._format_experience`. -/
def format_experience (l : List RawExp) : List Exp :=
  formatExperienceFrom 0 l

/-- `ALLOWED_EXTENSIONS` from `resume_parser.py`. -/
def ALLOWED_EXTENSIONS : List String := ["pdf", "docx", "txt", "json"]

/-- `MAX_FILE_SIZE = 5 * 1024 * 1024`. -/
def MAX_FILE_SIZE : Nat := 5 * 1024 * 1024

/-- `filename.rsplit('.', 1)[-1].lower() if '.' in filename else ''`: the
suffix after the last `.`, lowercased. -/
def get_file_extension (filename : String) : String :=
  if filename.data.contains '.' then
    pyLower (String.mk ((filename.data.reverse.takeWhile (fun c => c != '.')).reverse))
  else ""

/-- `ResumeParser.validate_file`.  The MIME-type block in the source
computes `mimetypes.guess_type` and then does nothing with it (`pass`),
so it does not appear in the decision. -/
def validate_file (filename : String) (file_size : Nat) : Bool × String :=
  if filename == "" then (false, "No file provided")
  else if ! ALLOWED_EXTENSIONS.contains (get_file_extension filename) then
    (false, "Please upload a PDF, DOCX, TXT, or JSON file")
  else if file_size > MAX_FILE_SIZE then (false, "File exceeds 5MB limit")
  else (true, "")

/-- The regex class `\w`, restricted to ASCII. -/
def isWordChar (c : Char) : Bool := c.isAlphanum || c == '_'

/-- The class `[\w\.-]` of the e-mail pattern. -/
def isEmailChar (c : Char) : Bool := isWordChar c || c == '.' || c == '-'

/-- Backtracking for the tail `\.\w+` inside the run matched greedily by
`[\w\.-]+` after the `@`: the deepest split (longest prefix kept by the
`+`) wins, exactly as the greedy engine backtracks from the right. -/
def emailDotSplit : List Char → Option (List Char)
  | [] => none
  | x :: rest =>
    match emailDotSplit rest with
    | some m => some (x :: m)
    | none =>
      if x == '.' then
        match rest.takeWhile isWordChar with
        | [] => none
        | w => some ('.' :: w)
      else none

/-- The part of the e-mail match after the `@`: `[\w\.-]+\.\w+`, where the
character before the `.` split must exist (the `+` is nonempty). -/
def emailAfterAt : List Char → Option (List Char)
  | [] => none
  | x :: rest => (emailDotSplit rest).map (fun m => x :: m)

/-- Try to match `[\w\.-]+@[\w\.-]+\.\w+` at the head of `cs`.  `@` is not
in the leading class, so the greedy leading run needs no backtracking. -/
def matchEmailAt (cs : List Char) : Option (List Char) :=
  let a := cs.takeWhile isEmailChar
  if a.isEmpty then none
  else
    match cs.drop a.length with
    | '@' :: rest =>
      let b := rest.takeWhile isEmailChar
      (emailAfterAt b).map (fun m => a ++ '@' :: m)
    | _ => none

/-- `re.search`: try every start position from the left, first match
wins. -/
def searchEmail : List Char → Option (List Char)
  | [] => none
  | c :: rest =>
    match matchEmailAt (c :: rest) with
    | some m => some m
    | none => searchEmail rest

/-- The separator class `[-.\s]` of the phone pattern (`\s` as the ASCII
whitespace characters, including vertical tab and form feed). -/
def isSepChar (c : Char) : Bool :=
  c == '-' || c == '.' || c == ' ' || c == '\t' || c == '\n' || c == '\r' ||
  c == '\x0b' || c == '\x0c'

/-- Take exactly `n` decimal digits from the front. -/
def takeDigits : Nat → List Char → Option (List Char × List Char)
  | 0, cs => some ([], cs)
  | _ + 1, [] => none
  | n + 1, c :: rest =>
    if c.isDigit then
      (takeDigits n rest).map (fun p => (c :: p.1, p.2))
    else none

/-- Try to match `[\(]?\d{3}[\)]?[-.\s]?\d{3}[-.\s]?\d{4}` at the head.
Every optional class is disjoint from `\d`, so taking each optional
greedily never needs backtracking: if the optional character is present
but digits then fail, skipping it would put that same non-digit character
under `\d` and fail as well. -/
def matchPhoneAt (cs : List Char) : Option (List Char) :=
  let st := match cs with
    | '(' :: r => (['('], r)
    | _ => (([] : List Char), cs)
  match takeDigits 3 st.2 with
  | none => none
  | some (d1, cs2) =>
    let p2 := match cs2 with
      | ')' :: r => (([')'] : List Char), r)
      | _ => ([], cs2)
    let p3 := match p2.2 with
      | c :: r => if isSepChar c then ([c], r) else ([], p2.2)
      | [] => (([] : List Char), p2.2)
    match takeDigits 3 p3.2 with
    | none => none
    | some (d2, cs5) =>
      let p4 := match cs5 with
        | c :: r => if isSepChar c then ([c], r) else ([], cs5)
        | [] => (([] : List Char), cs5)
      match takeDigits 4 p4.2 with
      | none => none
      | some (d3, _) => some (st.1 ++ d1 ++ p2.1 ++ p3.1 ++ d2 ++ p4.1 ++ d3)

/-- `re.search` for the phone pattern. -/
def searchPhone : List Char → Option (List Char)
  | [] => none
  | c :: rest =>
    match matchPhoneAt (c :: rest) with
    | some m => some m
    | none => searchPhone rest

/-- The class `[\w-]` of the LinkedIn pattern. -/
def isLinkTailChar (c : Char) : Bool := isWordChar c || c == '-'

/-- Try to match `linkedin\.com/in/[\w-]+` (IGNORECASE) at the head; the
matched text keeps the original casing. -/
def matchLinkedinAt (cs : List Char) : Option (List Char) :=
  let pre := cs.take 16
  if pre.length == 16 && pre.map Char.toLower == "linkedin.com/in/".data then
    match (cs.drop 16).takeWhile isLinkTailChar with
    | [] => none
    | tail => some (pre ++ tail)
  else none

/-- `re.search` for the LinkedIn pattern. -/
def searchLinkedin : List Char → Option (List Char)
  | [] => none
  | c :: rest =>
    match matchLinkedinAt (c :: rest) with
    | some m => some m
    | none => searchLinkedin rest

/-- Python `str.split(sep)` for a single separator character, computed on
the character list. -/
def splitOnChar (c : Char) : List Char → List (List Char)
  | [] => [[]]
  | x :: rest =>
    match splitOnChar c rest with
    | [] => [[]]
    | g :: gs => if x == c then [] :: g :: gs else (x :: g) :: gs

/-- The name heuristic: scan the first 5 lines for a stripped line that is
nonempty, under 50 characters, without `@`, and not starting with a
digit. -/
def nameScan : List String → String
  | [] => ""
  | l :: rest =>
    let s := pyStrip l
    if s != "" && s.data.length < 50 && !(s.data.contains '@') &&
        !(s.data.headD ' ').isDigit then s
    else nameScan rest

/-- `ResumeStructurer._regex_extract_personal`. -/
def regex_extract_personal (text : String) : Personal :=
  { name := some
      (nameScan (((splitOnChar '\n' (pyStrip text).data).map String.mk).take 5)),
    email := some (((searchEmail text.data).map String.mk).getD ""),
    phone := some (((searchPhone text.data).map String.mk).getD ""),
    location := some "",
    linkedin := some (((searchLinkedin text.data).map String.mk).getD ""),
    portfolio := none,
    summary := some "" }

/-- The oracle for the external Ollama collaborator: the liveness probe
`_check_ollama` and the outcome of each of the four extraction calls
(`Except.error` modelling an uncaught Python exception escaping the
call). -/
structure OllamaEnv where
  running : Bool
  personalR : Except String Personal
  experienceR : Except String (List Exp)
  educationR : Except String (List Edu)
  skillsR : Except String SkillsDict

/-- The document every fallback path of `structure_resume` builds:
regex-extracted personal info, empty experience/education, the four empty
skill categories, and the raw input text preserved. -/
def fallbackProfile (text : String) : Profile :=
  { meta := none,
    personal := some (regex_extract_personal text),
    experience := some [],
    education := some [],
    skills := some {
      technical := some [], soft := some [],
      tools := some [], certifications := some [] },
    projects := none, volunteer := none, awards := none,
    raw_text := some text }

/-- `ResumeStructurer.structure_resume`.  A total function: every path
returns a `(structured_data, error_message)` pair — the embedding of
"never raises to the caller".  The four calls run in source order and the
first failure takes the fallback branch with the "AI extraction failed"
warning. -/
def structure_resume (text : String) (use_ai : Bool) (env : OllamaEnv) :
    Profile × Option String :=
  if !use_ai then
    (fallbackProfile text,
      some "AI structuring disabled. Only basic extraction performed.")
  else if !env.running then
    (fallbackProfile text,
      some "Ollama not available. Only basic extraction performed.")
  else
    match env.personalR with
    | .error msg =>
      (fallbackProfile text, some ("AI extraction failed: " ++ msg))
    | .ok personal =>
      match env.experienceR with
      | .error msg =>
        (fallbackProfile text, some ("AI extraction failed: " ++ msg))
      | .ok experience =>
        match env.educationR with
        | .error msg =>
          (fallbackProfile text, some ("AI extraction failed: " ++ msg))
        | .ok education =>
          match env.skillsR with
          | .error msg =>
            (fallbackProfile text, some ("AI extraction failed: " ++ msg))
          | .ok skills =>
            ({ meta := none,
               personal := some personal,
               experience := some experience,
               education := some education,
               skills := some skills,
               projects := none, volunteer := none, awards := none,
               raw_text := none }, none)

/-- All four top-level content sections are present (possibly empty)
containers. -/
def sectionsPresent (p : Profile) : Bool :=
  p.personal.isSome && p.experience.isSome && p.education.isSome &&
  p.skills.isSome

/-- The four skills-category lists of a profile, reading an absent dict or
category as empty. -/
def skillsCatLists (p : Profile) : List (List String) :=
  [getCat p.skills SkillsDict.technical, getCat p.skills SkillsDict.soft,
   getCat p.skills SkillsDict.tools, getCat p.skills SkillsDict.certifications]

lemma newExps_self (l : List Exp) : newExps l l = [] := by
  simp only [newExps]
  rw [List.filter_eq_nil_iff]
  intro a ha
  simp only [Bool.not_eq_true', Bool.not_eq_false, List.any_eq_true]
  exact ⟨a, ha, by simp⟩

lemma newEdus_self (l : List Edu) : newEdus l l = [] := by
  simp only [newEdus]
  rw [List.filter_eq_nil_iff]
  intro a ha
  simp only [Bool.not_eq_true', Bool.not_eq_false, List.any_eq_true]
  exact ⟨a, ha, by simp⟩

lemma appendNewSkills_self (l : List String) : appendNewSkills l l = [] := by
  simp only [appendNewSkills]
  rw [List.filter_eq_nil_iff]
  intro a ha
  simp only [Bool.not_eq_true', Bool.not_eq_false, lowerMem, List.any_eq_true]
  exact ⟨a, ha, by simp⟩

lemma appendCatOpt_self (mc : Option (List String)) :
    appendCatOpt mc (mc.getD []) = mc := by
  cases mc with
  | none => rfl
  | some l => simp [appendCatOpt, appendNewSkills_self]

lemma mergeExpOpt_self (mexp : Option (List Exp)) :
    mergeExpOpt mexp (mexp.getD []) = mexp := by
  cases mexp with
  | none => rfl
  | some l => simp [mergeExpOpt, newExps_self]

lemma mergeEduOpt_self (medu : Option (List Edu)) :
    mergeEduOpt medu (medu.getD []) = medu := by
  cases medu with
  | none => rfl
  | some l => simp [mergeEduOpt, newEdus_self]

lemma appendSkillsDict_self (sk : Option SkillsDict) :
    appendSkillsDict sk sk = sk := by
  cases sk with
  | none => rfl
  | some sd =>
    cases sd with
    | mk t s o c =>
      simp only [appendSkillsDict, appendSkillsInner, getCat, Option.getD_some]
      rw [appendCatOpt_self, appendCatOpt_self, appendCatOpt_self,
        appendCatOpt_self]

/-- A concrete master profile whose `skills.technical` holds `"A"`. -/
def mutMaster : Profile :=
  { meta := none, personal := some emptyPersonal,
    experience := some [], education := some [],
    skills := some {
      technical := some ["A"], soft := some [],
      tools := some [], certifications := some [] },
    projects := none, volunteer := none, awards := none, raw_text := none }

/-- A concrete extracted profile whose `skills.technical` holds `"B"`. -/
def mutExtracted : Profile :=
  { meta := none, personal := none,
    experience := none, education := none,
    skills := some {
      technical := some ["B"], soft := none,
      tools := none, certifications := none },
    projects := none, volunteer := none, awards := none, raw_text := none }

/-- C1: the claim that `merge_with_master` never mutates either input
fails on the code: `result = master_data.copy()` is a shallow copy, and
the merge-mode skills branch appends extracted skills to the master's own
category list in place.  At the concrete input below the master argument
ends the call with `skills.technical = ["A", "B"]`, so it is not
unchanged. -/
theorem merge_with_master_mutates_master :
    master_after mutExtracted mutMaster "merge" ≠ mutMaster ∧
    (master_after mutExtracted mutMaster "merge").skills = some {
      technical := some ["A", "B"], soft := some [],
      tools := some [], certifications := some [] } := by
  constructor
  · decide
  · rfl

/-- C3: merging a profile into an identical master in `append` mode
returns a profile equal to it — every experience key, education key, and
lowercased skill is already present, so nothing is inserted. -/
theorem merge_append_self_identity (today : String) (P : Profile) :
    merge_with_master today P P "append" = P := by
  have h : merge_with_master today P P "append" = mergeAppend P P := rfl
  rw [h]
  cases P with
  | mk mt ps ex ed sk pj vl aw rt =>
    simp only [mergeAppend]
    rw [mergeExpOpt_self, mergeEduOpt_self, appendSkillsDict_self]

/-- C4: `replace` mode ignores the master entirely — any two masters give
the same output — and the output's four content sections are those of the
extracted profile with every absent optional field filled by its default
(empty string, empty list, empty mapping). -/
theorem merge_replace_ignores_master (today : String) (e m m' : Profile) :
    merge_with_master today e m "replace" = merge_with_master today e m' "replace" ∧
    (merge_with_master today e m "replace").personal = some {
      name := some ((e.personal.getD emptyPersonal).name.getD ""),
      email := some ((e.personal.getD emptyPersonal).email.getD ""),
      phone := some ((e.personal.getD emptyPersonal).phone.getD ""),
      location := some ((e.personal.getD emptyPersonal).location.getD ""),
      linkedin := some ((e.personal.getD emptyPersonal).linkedin.getD ""),
      portfolio := some "",
      summary := some ((e.personal.getD emptyPersonal).summary.getD "") } ∧
    (merge_with_master today e m "replace").experience =
      some (e.experience.getD []) ∧
    (merge_with_master today e m "replace").education =
      some (e.education.getD []) ∧
    (merge_with_master today e m "replace").skills = some {
      technical := some (getCat e.skills SkillsDict.technical),
      soft := some (getCat e.skills SkillsDict.soft),
      tools := some (getCat e.skills SkillsDict.tools),
      certifications := some (getCat e.skills SkillsDict.certifications) } :=
  ⟨rfl, rfl, rfl, rfl, rfl⟩

/-- C2: for each of the three modes, if both inputs are profile documents
(all four content sections present as possibly-empty containers), the
returned document also has all four sections present: `replace` builds
them all, and `append`/`merge` start from a shallow copy of the master
and only ever replace a present section by another present one. -/
theorem merge_with_master_sections_present (today : String) (e m : Profile)
    (mode : String)
    (hmode : mode = "replace" ∨ mode = "append" ∨ mode = "merge")
    (he : sectionsPresent e = true) (hm : sectionsPresent m = true) :
    sectionsPresent (merge_with_master today e m mode) = true := by
  simp only [sectionsPresent, Bool.and_eq_true] at hm
  obtain ⟨⟨⟨hp, hx⟩, hd⟩, hs⟩ := hm
  obtain ⟨lx, hlx⟩ := Option.isSome_iff_exists.mp hx
  obtain ⟨ld, hld⟩ := Option.isSome_iff_exists.mp hd
  obtain ⟨sd, hsd⟩ := Option.isSome_iff_exists.mp hs
  rcases hmode with h | h | h <;> subst h
  · rfl
  · have : merge_with_master today e m "append" = mergeAppend e m := rfl
    rw [this]
    simp only [sectionsPresent, mergeAppend, Bool.and_eq_true]
    refine ⟨⟨⟨hp, ?_⟩, ?_⟩, ?_⟩
    · rw [hlx]; simp [mergeExpOpt]
    · rw [hld]; simp [mergeEduOpt]
    · rw [hsd]; simp [appendSkillsDict]
  · have : merge_with_master today e m "merge" = mergeMerge e m := rfl
    rw [this]
    simp only [sectionsPresent, mergeMerge, Bool.and_eq_true]
    refine ⟨⟨⟨?_, ?_⟩, ?_⟩, ?_⟩
    · obtain ⟨pp, hpp⟩ := Option.isSome_iff_exists.mp hp
      rw [hpp]
      cases e.personal with
      | none => rfl
      | some ep => rfl
    · rw [hlx]; simp [mergeExpOpt]
    · rw [hld]; simp [mergeEduOpt]
    · rfl

/-- Witness for C2 at concrete inputs: two fully sectioned profiles in
`merge` mode. -/
theorem merge_with_master_sections_present_witness :
    sectionsPresent (merge_with_master "2024-01-01" mutMaster mutMaster "merge") =
      true :=
  merge_with_master_sections_present "2024-01-01" mutMaster mutMaster "merge"
    (Or.inr (Or.inr rfl)) (by decide) (by decide)

lemma formatExperienceFrom_length (n : Nat) (l : List RawExp) :
    (formatExperienceFrom n l).length = l.length := by
  induction l generalizing n with
  | nil => rfl
  | cons e rest ih => simp [formatExperienceFrom, ih]

lemma formatExperienceFrom_get (n : Nat) (l : List RawExp) (i : Nat)
    (h : i < l.length) (h' : i < (formatExperienceFrom n l).length) :
    (formatExperienceFrom n l).get ⟨i, h'⟩ = formatOneExp (n + i) (l.get ⟨i, h⟩) := by
  induction l generalizing n i with
  | nil => exact absurd h (by simp)
  | cons e rest ih =>
    cases i with
    | zero => rfl
    | succ j =>
      have hj : j < rest.length := Nat.lt_of_succ_lt_succ h
      have hj' : j < (formatExperienceFrom (n + 1) rest).length := by
        rw [formatExperienceFrom_length]; exact hj
      have heq : (formatExperienceFrom n (e :: rest)).get ⟨j + 1, h'⟩ =
          (formatExperienceFrom (n + 1) rest).get ⟨j, hj'⟩ := rfl
      have harith : n + 1 + j = n + (j + 1) := by omega
      rw [heq, ih (n + 1) j hj hj', harith]
      rfl

lemma formatOneExp_current_of_present (i : Nat) (exp : RawExp)
    (hp : pyLower (exp.end_date.getD "") = "present") :
    (formatOneExp i exp).current = true := by
  cases hc : exp.current.getD false <;> simp [formatOneExp, hc, hp]

/-- C6: every experience entry whose textual end date is the
case-insensitive string "present" is formatted with `current = true`,
whatever its incoming `current` flag (true, false or absent). -/
theorem format_experience_present_forces_current (exps : List RawExp)
    (i : Nat) (h : i < exps.length)
    (hp : pyLower ((exps.get ⟨i, h⟩).end_date.getD "") = "present") :
    ∃ h' : i < (format_experience exps).length,
      ((format_experience exps).get ⟨i, h'⟩).current = true := by
  have hlen : i < (format_experience exps).length := by
    unfold format_experience
    rw [formatExperienceFrom_length]; exact h
  refine ⟨hlen, ?_⟩
  have h2 : (format_experience exps).get ⟨i, hlen⟩ =
      formatOneExp (0 + i) (exps.get ⟨i, h⟩) :=
    formatExperienceFrom_get 0 exps i h hlen
  rw [h2]
  exact formatOneExp_current_of_present (0 + i) _ hp

/-- A raw entry whose end date reads "Present" while its flag says
false. -/
def presentRawExp : RawExp :=
  { company := some "Acme", title := some "Engineer", location := none,
    start_date := some "2020-01", end_date := some "Present",
    current := some false, bullets := none }

/-- Witness for C6: end date "Present" with `current = false` still
yields `current = true`. -/
theorem format_experience_present_forces_current_witness :
    ∃ h' : 0 < (format_experience [presentRawExp]).length,
      ((format_experience [presentRawExp]).get ⟨0, h'⟩).current = true :=
  format_experience_present_forces_current [presentRawExp] 0 (by decide)
    (by decide)

/-- A raw entry with a single bullet prefixed by the bullet character
U+2022. -/
def bulletRawExp : RawExp :=
  { company := none, title := none, location := none,
    start_date := none, end_date := none, current := none,
    bullets := some [.str "• Led team"] }

/-- C7 fails on the code: the `lstrip` literal in the source is the
mojibake `â€¢` (the UTF-8 bytes of U+2022 mis-decoded), so the strip set
does not contain the bullet character itself and a leading `•` survives
into the stored original text.  Hyphens, asterisks and whitespace are
stripped as claimed. -/
theorem format_experience_keeps_bullet_marker :
    (format_experience [bulletRawExp]).map (fun e => e.bullets.map Bullet.original) =
      [["• Led team"]] ∧
    ¬ '•' ∈ lstripChars ∧
    pyLstrip lstripChars (pyStrip "- dash") = "dash" ∧
    pyLstrip lstripChars (pyStrip "* star") = "star" := by
  refine ⟨by decide, by decide, by decide, by decide⟩

/-- C8: `validate_file` rejects exactly when the lowercased suffix after
the last `.` is not an allowed extension or the size strictly exceeds
5 MiB, and the reason string is empty exactly on acceptance.  The MIME
guess computed by the source is discarded (`pass`) and cannot override
an extension-based acceptance. -/
theorem validate_file_spec (filename : String) (size : Nat) :
    ((validate_file filename size).1 = false ↔
      (get_file_extension filename ∉ ALLOWED_EXTENSIONS ∨
        5 * 1024 * 1024 < size)) ∧
    ((validate_file filename size).2 = "" ↔
      (validate_file filename size).1 = true) := by
  by_cases hf : filename = ""
  · subst hf
    have hv : validate_file "" size = (false, "No file provided") := rfl
    have hext : get_file_extension "" ∉ ALLOWED_EXTENSIONS := by decide
    rw [hv]
    exact ⟨by simp [hext], by decide⟩
  · have hf' : (filename == "") = false := by simp [hf]
    by_cases hc : ALLOWED_EXTENSIONS.contains (get_file_extension filename)
    · have hmem : get_file_extension filename ∈ ALLOWED_EXTENSIONS := by
        simpa using hc
      by_cases hs : MAX_FILE_SIZE < size
      · have hs2 : 5 * 1024 * 1024 < size := hs
        have hv : validate_file filename size = (false, "File exceeds 5MB limit") := by
          simp [validate_file, hf', hc, hs, hmem]
        rw [hv]
        exact ⟨by simp [hs2], by decide⟩
      · have hs2 : ¬ 5 * 1024 * 1024 < size := hs
        have hv : validate_file filename size = (true, "") := by
          simp [validate_file, hf', hc, hs, hmem]
        rw [hv]
        exact ⟨by simp [hmem, hs2], by simp⟩
    · have hmem : get_file_extension filename ∉ ALLOWED_EXTENSIONS := by
        simpa using hc
      have hv : validate_file filename size =
          (false, "Please upload a PDF, DOCX, TXT, or JSON file") := by
        simp [validate_file, hf', hc, hmem]
      rw [hv]
      exact ⟨by simp [hmem], by decide⟩

lemma mergeNewSkillsAux_spec (l : List String) (seen : List String) :
    ((mergeNewSkillsAux l seen).map pyLower).Nodup ∧
    ∀ s ∈ mergeNewSkillsAux l seen, pyLower s ∉ seen := by
  induction l generalizing seen with
  | nil => exact ⟨List.nodup_nil, by simp [mergeNewSkillsAux]⟩
  | cons s rest ih =>
    by_cases hc : seen.contains (pyLower s)
    · simp only [mergeNewSkillsAux, if_pos hc]
      exact ih seen
    · simp only [mergeNewSkillsAux, if_neg hc]
      obtain ⟨ihn, ihf⟩ := ih (pyLower s :: seen)
      have hns : pyLower s ∉ seen := by simpa using hc
      refine ⟨?_, ?_⟩
      · simp only [List.map_cons, List.nodup_cons]
        refine ⟨?_, ihn⟩
        intro hmem
        obtain ⟨t, ht, hts⟩ := List.mem_map.mp hmem
        exact (ihf t ht) (hts ▸ List.mem_cons_self _ _)
      · intro t ht
        rcases List.mem_cons.mp ht with rfl | ht'
        · exact hns
        · exact fun hin => (ihf t ht') (List.mem_cons_of_mem _ hin)

lemma mergeCat_lower_nodup (mc ec : List String)
    (h : (mc.map pyLower).Nodup) : ((mergeCat mc ec).map pyLower).Nodup := by
  unfold mergeCat
  rw [List.map_append, List.nodup_append]
  refine ⟨h, (mergeNewSkillsAux_spec ec (mc.map pyLower)).1, ?_⟩
  intro a ha hb
  obtain ⟨t, ht, rfl⟩ := List.mem_map.mp hb
  exact (mergeNewSkillsAux_spec ec (mc.map pyLower)).2 t ht ha

/-- An extracted profile with the same skill twice in different casings. -/
def dupExtracted : Profile :=
  { meta := none, personal := none, experience := none, education := none,
    skills := some {
      technical := some ["python", "PYTHON"], soft := none,
      tools := none, certifications := none },
    projects := none, volunteer := none, awards := none, raw_text := none }

/-- A master profile whose sections are all present and empty. -/
def plainMaster : Profile :=
  { meta := none, personal := some emptyPersonal,
    experience := some [], education := some [],
    skills := some {
      technical := some [], soft := some [],
      tools := some [], certifications := some [] },
    projects := none, volunteer := none, awards := none, raw_text := none }

/-- A master holding the skill "Python". -/
def pyMaster : Profile :=
  { plainMaster with
    skills := some {
      technical := some ["Python"], soft := some [],
      tools := some [], certifications := some [] } }

/-- An extracted profile holding the skill "python". -/
def pyExtracted : Profile :=
  { meta := none, personal := none, experience := none, education := none,
    skills := some {
      technical := some ["python"], soft := none,
      tools := none, certifications := none },
    projects := none, volunteer := none, awards := none, raw_text := none }

/-- C5 fails on the code in append mode: the `existing` set of lowercased
master skills is computed before the loop and never extended inside it,
so an extracted batch containing "python" and "PYTHON" puts both into the
output category. -/
theorem append_skills_case_insensitive_duplicate :
    ¬ ((getCat (merge_with_master "2024-01-01" dupExtracted plainMaster
        "append").skills SkillsDict.technical).map pyLower).Nodup := by
  decide

/-- C5 amended: in merge mode, a master whose categories are
case-insensitively duplicate-free yields an output whose categories are
case-insensitively duplicate-free, and a master "Python" meeting an
extracted "python" yields the single entry "Python" (first-seen casing)
in both append and merge modes; append mode, however, dedupes extracted
skills only against the master's pre-existing entries, so duplicates
within the extracted batch itself are all kept. -/
theorem merge_skills_case_insensitive_unique_amended (today : String)
    (e m : Profile)
    (h : ∀ l ∈ skillsCatLists m, (l.map pyLower).Nodup) :
    (∀ l ∈ skillsCatLists (merge_with_master today e m "merge"),
      (l.map pyLower).Nodup) ∧
    getCat (merge_with_master today pyExtracted pyMaster "merge").skills
      SkillsDict.technical = ["Python"] ∧
    getCat (merge_with_master today pyExtracted pyMaster "append").skills
      SkillsDict.technical = ["Python"] ∧
    getCat (merge_with_master today dupExtracted plainMaster "append").skills
      SkillsDict.technical = ["python", "PYTHON"] := by
  refine ⟨?_, rfl, rfl, rfl⟩
  intro l hl
  have hmm : merge_with_master today e m "merge" = mergeMerge e m := rfl
  rw [hmm] at hl
  have hcats : skillsCatLists (mergeMerge e m) =
      [mergeCat (getCat m.skills SkillsDict.technical)
        (getCat e.skills SkillsDict.technical),
       mergeCat (getCat m.skills SkillsDict.soft)
        (getCat e.skills SkillsDict.soft),
       mergeCat (getCat m.skills SkillsDict.tools)
        (getCat e.skills SkillsDict.tools),
       mergeCat (getCat m.skills SkillsDict.certifications)
        (getCat e.skills SkillsDict.certifications)] := rfl
  rw [hcats] at hl
  have h1 := h _ (show getCat m.skills SkillsDict.technical ∈ skillsCatLists m by
    simp [skillsCatLists])
  have h2 := h _ (show getCat m.skills SkillsDict.soft ∈ skillsCatLists m by
    simp [skillsCatLists])
  have h3 := h _ (show getCat m.skills SkillsDict.tools ∈ skillsCatLists m by
    simp [skillsCatLists])
  have h4 := h _ (show getCat m.skills SkillsDict.certifications ∈ skillsCatLists m by
    simp [skillsCatLists])
  simp only [List.mem_cons, List.not_mem_nil, or_false] at hl
  rcases hl with rfl | rfl | rfl | rfl
  · exact mergeCat_lower_nodup _ _ h1
  · exact mergeCat_lower_nodup _ _ h2
  · exact mergeCat_lower_nodup _ _ h3
  · exact mergeCat_lower_nodup _ _ h4

/-- Witness for the amended C5 at concrete inputs. -/
theorem merge_skills_case_insensitive_unique_amended_witness :
    (∀ l ∈ skillsCatLists (merge_with_master "2024-01-01" pyExtracted pyMaster
        "merge"), (l.map pyLower).Nodup) ∧
    getCat (merge_with_master "2024-01-01" pyExtracted pyMaster "merge").skills
      SkillsDict.technical = ["Python"] ∧
    getCat (merge_with_master "2024-01-01" pyExtracted pyMaster "append").skills
      SkillsDict.technical = ["Python"] ∧
    getCat (merge_with_master "2024-01-01" dupExtracted plainMaster
      "append").skills SkillsDict.technical = ["python", "PYTHON"] :=
  merge_skills_case_insensitive_unique_amended "2024-01-01" pyExtracted pyMaster
    (by decide)

/-- C9: `structure_resume` is a total function into result pairs (the
embedding of "never raises"), and each degraded path — AI disabled,
liveness probe failed, or an uncaught failure in any of the four
extraction calls — returns the deterministic pattern-matching fallback
(regex personal info, empty experience/education/skills) with its warning
string; the uncaught-failure warning is `"AI extraction failed: <cause>"`
and the fallback preserves the input under `raw_text`. -/
theorem structure_resume_never_raises :
    (∀ (text : String) (env : OllamaEnv),
      structure_resume text false env =
        (fallbackProfile text,
          some "AI structuring disabled. Only basic extraction performed.")) ∧
    (∀ (text : String) (pR : Except String Personal)
      (eR : Except String (List Exp)) (dR : Except String (List Edu))
      (sR : Except String SkillsDict),
      structure_resume text true ⟨false, pR, eR, dR, sR⟩ =
        (fallbackProfile text,
          some "Ollama not available. Only basic extraction performed.")) ∧
    (∀ (text msg : String) (eR : Except String (List Exp))
      (dR : Except String (List Edu)) (sR : Except String SkillsDict),
      structure_resume text true ⟨true, .error msg, eR, dR, sR⟩ =
        (fallbackProfile text, some ("AI extraction failed: " ++ msg))) ∧
    (∀ (text msg : String) (p : Personal) (dR : Except String (List Edu))
      (sR : Except String SkillsDict),
      structure_resume text true ⟨true, .ok p, .error msg, dR, sR⟩ =
        (fallbackProfile text, some ("AI extraction failed: " ++ msg))) ∧
    (∀ (text msg : String) (p : Personal) (ex : List Exp)
      (sR : Except String SkillsDict),
      structure_resume text true ⟨true, .ok p, .ok ex, .error msg, sR⟩ =
        (fallbackProfile text, some ("AI extraction failed: " ++ msg))) ∧
    (∀ (text msg : String) (p : Personal) (ex : List Exp) (ed : List Edu),
      structure_resume text true ⟨true, .ok p, .ok ex, .ok ed, .error msg⟩ =
        (fallbackProfile text, some ("AI extraction failed: " ++ msg))) ∧
    (∀ text : String,
      (fallbackProfile text).raw_text = some text ∧
      (fallbackProfile text).personal = some (regex_extract_personal text) ∧
      (fallbackProfile text).experience = some [] ∧
      (fallbackProfile text).education = some [] ∧
      (fallbackProfile text).skills = some {
        technical := some [], soft := some [],
        tools := some [], certifications := some [] }) :=
  ⟨fun _ _ => rfl, fun _ _ _ _ _ => rfl, fun _ _ _ _ _ => rfl,
   fun _ _ _ _ _ => rfl, fun _ _ _ _ _ => rfl, fun _ _ _ _ _ => rfl,
   fun _ => ⟨rfl, rfl, rfl, rfl, rfl⟩⟩

/-- Modelled from the claim's wording for C10: the extracted entries whose
key triple occurs neither among the master's triples nor earlier in the
extracted list (`seen` accumulates every triple already scanned). -/
def claimNewExpsAux (masterKeys : List (String × String × String)) :
    List Exp → List (String × String × String) → List Exp
  | [], _ => []
  | x :: rest, seen =>
    if masterKeys.contains (expKey x) || seen.contains (expKey x) then
      claimNewExpsAux masterKeys rest (expKey x :: seen)
    else
      x :: claimNewExpsAux masterKeys rest (expKey x :: seen)

/-- Modelled from the claim's wording for C10: its notion of "new"
experience entries. -/
def claimNewExps (masterExp l : List Exp) : List Exp :=
  claimNewExpsAux (masterExp.map expKey) l []

/-- A first experience entry. -/
def expA : Exp :=
  { id := "exp_001", company := "c1", title := "t1", location := "",
    start_date := "2020-01", end_date := "", current := false, bullets := [] }

/-- A second experience entry with a different key. -/
def expB : Exp :=
  { id := "exp_002", company := "c2", title := "t2", location := "",
    start_date := "2021-01", end_date := "", current := false, bullets := [] }

/-- An extracted profile whose experience list repeats the key of its
first entry in its third entry. -/
def dupKeyExtracted : Profile :=
  { meta := none, personal := none,
    experience := some [expA, expB, expA], education := none, skills := none,
    projects := none, volunteer := none, awards := none, raw_text := none }

/-- C10 fails on the code: `existing_exp` is built from the master alone
and never updated inside the insertion loop, so an extracted list whose
third entry repeats the key of its first gets all three entries inserted,
while the claim (which discounts entries whose key occurred earlier in
the extracted list, leaving k = 2 new entries here) predicts a two-entry
output. -/
theorem append_experience_order_counterexample :
    (merge_with_master "2024-01-01" dupKeyExtracted plainMaster
      "append").experience ≠
      some ((claimNewExps [] [expA, expB, expA]).reverse ++ []) ∧
    (merge_with_master "2024-01-01" dupKeyExtracted plainMaster
      "append").experience = some [expA, expB, expA] ∧
    claimNewExps [] [expA, expB, expA] = [expA, expB] := by
  refine ⟨by decide, by decide, by decide⟩

/-- C10 amended: in append and merge modes, with "new" meaning that the
entry's (company, title, start_date) triple occurs nowhere in the master
(entries repeating a key from earlier in the extracted list are inserted
again), the output experience list is the new entries in reverse
extraction order followed by the master's entries in their original
order. -/
theorem merge_experience_insert_order_amended (today : String)
    (e m : Profile) (le lm : List Exp)
    (he : e.experience = some le) (hm : m.experience = some lm)
    (hk : 2 ≤ (newExps lm le).length) :
    (merge_with_master today e m "append").experience =
      some ((newExps lm le).reverse ++ lm) ∧
    (merge_with_master today e m "merge").experience =
      some ((newExps lm le).reverse ++ lm) := by
  have ha : merge_with_master today e m "append" = mergeAppend e m := rfl
  have hg : merge_with_master today e m "merge" = mergeMerge e m := rfl
  rw [ha, hg]
  simp [mergeAppend, mergeMerge, mergeExpOpt, he, hm]

/-- A two-entry extracted profile with fresh keys. -/
def freshExtracted : Profile :=
  { meta := none, personal := none,
    experience := some [expA, expB], education := none, skills := none,
    projects := none, volunteer := none, awards := none, raw_text := none }

/-- Witness for the amended C10 at concrete inputs with k = 2. -/
theorem merge_experience_insert_order_amended_witness :
    (merge_with_master "2024-01-01" freshExtracted plainMaster
      "append").experience =
      some ((newExps [] [expA, expB]).reverse ++ []) ∧
    (merge_with_master "2024-01-01" freshExtracted plainMaster
      "merge").experience =
      some ((newExps [] [expA, expB]).reverse ++ []) :=
  merge_experience_insert_order_amended "2024-01-01" freshExtracted plainMaster
    [expA, expB] [] rfl rfl (by decide)

end JobHunter
